import Mathlib

/-!
Shallow embedding of the TAPEDRIVE on-chain core (tapedrive-io/tape).

Bytes are modelled as `Nat` (values < 256 where it matters), u64 values as
`Nat` with explicit saturation at `2^64 - 1` where the source uses the
saturating operations, and i64 timestamps as `Int`.  Keccak-256 and the
brine_tree root computation live in external crates, so hashing is carried
as an explicit function argument `H : List Nat → List Nat` and the Merkle
tree is modelled at its interface: the ordered list of leaves it holds
(capacity 2^18) together with an abstract root function.
-/

/-- Largest u64 value; saturating arithmetic clamps here. -/
def U64MAX : Nat := 2 ^ 64 - 1

/-- u64::saturating_add. -/
def satAdd (a b : Nat) : Nat := min (a + b) U64MAX

/-- u64::saturating_mul. -/
def satMul (a b : Nat) : Nat := min (a * b) U64MAX

/-- u64::saturating_pow. -/
def satPow (a b : Nat) : Nat := min (a ^ b) U64MAX

/-- u64::to_le_bytes — the eight little-endian bytes of a u64. -/
def leBytes8 (n : Nat) : List Nat :=
  [n % 256, n / 256 % 256, n / 256 ^ 2 % 256, n / 256 ^ 3 % 256,
   n / 256 ^ 4 % 256, n / 256 ^ 5 % 256, n / 256 ^ 6 % 256, n / 256 ^ 7 % 256]

/-- `padded_array::<N>` from api/src/utils.rs: copy at most `N` bytes of the
input and pad the remainder with zeros, always returning `N` bytes. -/
def padded_array (N : Nat) (input : List Nat) : List Nat :=
  input.take N ++ List.replicate (N - input.length) 0

/-- Rust `slice::chunks(n)` (std semantics, used by tape/write.rs): the
ceil(len/n) consecutive chunks of the slice, the last possibly short. -/
def chunks (n : Nat) (l : List Nat) : List (List Nat) :=
  (List.range ((l.length + n - 1) / n)).map (fun i => (l.drop (n * i)).take n)

/-- SEGMENT_SIZE from api/src/consts.rs. -/
def SEGMENT_SIZE : Nat := 128

/-- TREE_HEIGHT from api/src/consts.rs. -/
def TREE_HEIGHT : Nat := 18

/-- EPOCH_BLOCKS from api/src/consts.rs. -/
def EPOCH_BLOCKS : Nat := 10

/-- BLOCK_DURATION_SECONDS from api/src/consts.rs (= ONE_MINUTE = 60). -/
def BLOCK_DURATION_SECONDS : Nat := 60

/-- EPOCHS_PER_YEAR from api/src/consts.rs:
365*24*60 / (60/60) / 10 = 52560. -/
def EPOCHS_PER_YEAR : Nat := 52560

/-- ONE_TAPE = 10^TOKEN_DECIMALS = 10^10, from api/src/consts.rs. -/
def ONE_TAPE : Nat := 10 ^ 10

/-- get_storage_rate from api/src/curve.rs (duplicated verbatim in
program/src/miner/mine.rs): piecewise-constant storage reward per minute,
keyed on total archive bytes. -/
def get_storage_rate (archive_byte_size : Nat) : Nat :=
  if archive_byte_size < 1000 then 0
  else if archive_byte_size < 1048576 then 190
  else if archive_byte_size < 2486565 then 451
  else if archive_byte_size < 5896576 then 1070
  else if archive_byte_size < 13982985 then 2537
  else if archive_byte_size < 33158884 then 6017
  else if archive_byte_size < 78632107 then 14267
  else if archive_byte_size < 186466111 then 33833
  else if archive_byte_size < 442180832 then 80231
  else if archive_byte_size < 1048575999 then 190259
  else if archive_byte_size < 2486565554 then 451175
  else if archive_byte_size < 5896576174 then 1069904
  else if archive_byte_size < 13982985692 then 2537141
  else if archive_byte_size < 33158884597 then 6016510
  else if archive_byte_size < 78632107044 then 14267394
  else if archive_byte_size < 186466111066 then 33833322
  else if archive_byte_size < 442180832779 then 80231450
  else if archive_byte_size < 1048575999999 then 190258752
  else if archive_byte_size < 2486565554787 then 451174602
  else if archive_byte_size < 5896576174027 then 1069903587
  else if archive_byte_size < 13982985692520 then 2537141233
  else if archive_byte_size < 33158884597887 then 6016510008
  else if archive_byte_size < 78632107044498 then 14267393633
  else if archive_byte_size < 186466111066097 then 33833322109
  else if archive_byte_size < 442180832779129 then 80231450424
  else if archive_byte_size < 1048576000000000 then 190258751903
  else 20

/-- get_inflation_rate from api/src/curve.rs: piecewise-constant inflation
reward per minute keyed on the epoch number. -/
def get_inflation_rate (current_epoch : Nat) : Nat :=
  if current_epoch < 1 * EPOCHS_PER_YEAR then 10000000000
  else if current_epoch < 2 * EPOCHS_PER_YEAR then 7500000000
  else if current_epoch < 3 * EPOCHS_PER_YEAR then 5625000000
  else if current_epoch < 4 * EPOCHS_PER_YEAR then 4218750000
  else if current_epoch < 5 * EPOCHS_PER_YEAR then 3164062500
  else if current_epoch < 6 * EPOCHS_PER_YEAR then 2373046875
  else if current_epoch < 7 * EPOCHS_PER_YEAR then 1779785156
  else if current_epoch < 8 * EPOCHS_PER_YEAR then 1334838867
  else if current_epoch < 9 * EPOCHS_PER_YEAR then 1001129150
  else if current_epoch < 10 * EPOCHS_PER_YEAR then 750846862
  else if current_epoch < 11 * EPOCHS_PER_YEAR then 563135147
  else if current_epoch < 12 * EPOCHS_PER_YEAR then 422351360
  else if current_epoch < 13 * EPOCHS_PER_YEAR then 316763520
  else if current_epoch < 14 * EPOCHS_PER_YEAR then 237572640
  else if current_epoch < 15 * EPOCHS_PER_YEAR then 178179480
  else if current_epoch < 16 * EPOCHS_PER_YEAR then 133634610
  else if current_epoch < 17 * EPOCHS_PER_YEAR then 100225957
  else if current_epoch < 18 * EPOCHS_PER_YEAR then 75169468
  else if current_epoch < 19 * EPOCHS_PER_YEAR then 56377101
  else if current_epoch < 20 * EPOCHS_PER_YEAR then 42282825
  else if current_epoch < 21 * EPOCHS_PER_YEAR then 31712119
  else if current_epoch < 22 * EPOCHS_PER_YEAR then 23784089
  else if current_epoch < 23 * EPOCHS_PER_YEAR then 17838067
  else if current_epoch < 24 * EPOCHS_PER_YEAR then 13378550
  else if current_epoch < 25 * EPOCHS_PER_YEAR then 10033913
  else 0

/-- TapeState encodings (api/src/state/tape.rs): Unknown=0, Created=1,
Writing=2, Finalized=3; `Tape.state` is stored as a raw u32. -/
def tapeStateUnknown : Nat := 0

/-- TapeState::Created as u32. -/
def tapeStateCreated : Nat := 1

/-- TapeState::Writing as u32. -/
def tapeStateWriting : Nat := 2

/-- TapeState::Finalized as u32. -/
def tapeStateFinalized : Nat := 3

/-- Archive record (api/src/state/archive.rs). -/
structure Archive where
  tapes_stored : Nat
  bytes_stored : Nat
  deriving Repr, DecidableEq

/-- Epoch record (api/src/state/epoch.rs).  program/src/miner/mine.rs calls
the `target_participation` field `target_unique`; the record has a single
such field and the embedding keeps the record name. -/
structure Epoch where
  number : Nat
  progress : Nat
  target_difficulty : Nat
  target_participation : Nat
  reward_rate : Nat
  duplicates : Nat
  last_epoch_at : Int
  deriving Repr, DecidableEq

/-- Block record (api/src/state/block.rs). -/
structure Block where
  number : Nat
  progress : Nat
  challenge : List Nat
  challenge_set : Nat
  last_proof_at : Int
  last_block_at : Int
  deriving Repr, DecidableEq

/-- Miner record (api/src/state/miner.rs).  Public keys are abstracted to
`Nat` identities. -/
structure Miner where
  authority : Nat
  name : List Nat
  unclaimed_rewards : Nat
  current_challenge : List Nat
  recall_tape : Nat
  multiplier : Nat
  last_proof_hash : List Nat
  last_proof_at : Int
  total_proofs : Nat
  total_rewards : Nat
  deriving Repr, DecidableEq

/-- Tape record (api/src/state/tape.rs); `state` is the raw u32 encoding. -/
structure Tape where
  number : Nat
  state : Nat
  layout : Nat
  authority : Nat
  name : List Nat
  merkle_seed : List Nat
  merkle_root : List Nat
  opaqueData : List Nat
  total_segments : Nat
  total_size : Nat
  deriving Repr, DecidableEq

/-- Error codes from api/src/error.rs (plus the runtime errors the
processors surface). -/
inductive TapeErr where
  | UnknownError
  | UnexpectedState
  | WriteFailed
  | SolutionInvalid
  | SolutionTooEasy
  | SolutionTooEarly
  | ClaimTooLarge
  | StaleEpoch
  | ClockInvalid
  | MaxSupply
  | MissingRequiredSignature
  | InvalidAccountData
  deriving Repr, DecidableEq

/-- compute_leaf from api/src/utils.rs: `Leaf::new(&[id.to_le_bytes(),
segment])`.  The brine_tree `Leaf` is modelled by the byte string fed to
it: the 8 little-endian id bytes followed by the 128 segment bytes. -/
def compute_leaf (segment_id : Nat) (segment : List Nat) : List Nat :=
  leBytes8 segment_id ++ segment

/-- The brine_tree `MerkleTree<18>` modelled at its interface: the ordered
leaves it holds.  The root is an abstract function of this list, passed
where the source calls `get_root()`. -/
structure MerkleTreeM where
  leaves : List (List Nat)
  deriving Repr, DecidableEq

/-- brine_tree `try_add_leaf`: appends in the next free slot if fewer than
2^TREE_HEIGHT leaves are present, fails otherwise. -/
def try_add_leaf (t : MerkleTreeM) (leaf : List Nat) : Option MerkleTreeM :=
  if t.leaves.length < 2 ^ TREE_HEIGHT then some ⟨t.leaves ++ [leaf]⟩ else none

/-- write_segment from api/src/utils.rs: add `compute_leaf segment_id
segment` to the tree; `WriteFailed` when the tree is full. -/
def write_segment (tree : MerkleTreeM) (segment_id : Nat) (segment : List Nat) :
    Except TapeErr MerkleTreeM :=
  match try_add_leaf tree (compute_leaf segment_id segment) with
  | none => Except.error TapeErr.WriteFailed
  | some t => Except.ok t

/-- The write loop of process_write (tape/write.rs lines 47..57): append the
canonical (zero-padded) form of each chunk, numbering from `start`. -/
def write_segments (tree : MerkleTreeM) (start : Nat) (segs : List (List Nat)) :
    Except TapeErr MerkleTreeM :=
  match segs with
  | [] => Except.ok tree
  | s :: rest =>
      match write_segment tree start (padded_array SEGMENT_SIZE s) with
      | Except.error e => Except.error e
      | Except.ok t => write_segments t (start + 1) rest

/-- process_write from program/src/tape/write.rs, on the state it touches.
`rootFn` stands for the brine_tree root of the writer tree (`get_root`).
Account checks modelled: the signer must equal `tape.authority` and the
tape state must be Created or Writing. -/
def process_write (rootFn : List (List Nat) → List Nat) (signer : Nat)
    (tape : Tape) (writer : MerkleTreeM) (data : List Nat) :
    Except TapeErr (Tape × MerkleTreeM) :=
  if tape.authority ≠ signer then Except.error TapeErr.MissingRequiredSignature
  else if ¬(tape.state = tapeStateCreated ∨ tape.state = tapeStateWriting) then
    Except.error TapeErr.UnexpectedState
  else
    match write_segments writer tape.total_segments (chunks SEGMENT_SIZE data) with
    | Except.error e => Except.error e
    | Except.ok writer2 =>
        Except.ok
          ({ tape with
              total_segments := tape.total_segments + (chunks SEGMENT_SIZE data).length
              total_size := tape.total_size + data.length
              merkle_root := rootFn writer2.leaves
              opaqueData := padded_array 64 data
              state := tapeStateWriting },
           writer2)

/-- process_finalize from program/src/tape/finalize.rs, on the state it
touches.  Requires `tape.state == Writing`; increments
`archive.tapes_stored`, assigns `tape.number` to the incremented count,
sets the state to Finalized, copies the writer root into `merkle_root`
and the instruction argument into `opaque_data` (the Writer record is
then closed). -/
def process_finalize (rootFn : List (List Nat) → List Nat) (signer : Nat)
    (tape : Tape) (writer : MerkleTreeM) (archive : Archive)
    (argOpaque : List Nat) : Except TapeErr (Tape × Archive) :=
  if tape.authority ≠ signer then Except.error TapeErr.MissingRequiredSignature
  else if tape.state ≠ tapeStateWriting then Except.error TapeErr.UnexpectedState
  else
    Except.ok
      ({ tape with
          number := archive.tapes_stored + 1
          state := tapeStateFinalized
          merkle_root := rootFn writer.leaves
          opaqueData := argOpaque },
       { archive with tapes_stored := archive.tapes_stored + 1 })

/-- process_claim from program/src/miner/claim.rs, on the state it touches:
`checked_sub` of the requested amount from `unclaimed_rewards`
(`ClaimTooLarge` on underflow), then a token transfer of exactly `amount`
from the treasury ATA to the beneficiary; the second component of the
result is the transferred amount. -/
def process_claim (miner : Miner) (amount : Nat) : Except TapeErr (Miner × Nat) :=
  if amount ≤ miner.unclaimed_rewards then
    Except.ok ({ miner with unclaimed_rewards := miner.unclaimed_rewards - amount }, amount)
  else
    Except.error TapeErr.ClaimTooLarge

/-- ONE_MINUTE from api/src/consts.rs, as seconds. -/
def ONE_MINUTE : Nat := 60

/-- update_miner_multiplier from program/src/miner/mine.rs (lines 188..203).
GRACE_PERIOD_SECONDS is used but not defined anywhere under src/, so it is
carried as the explicit argument `grace`.  On time within the grace window
the multiplier saturating-increments, capped at 32; otherwise it
saturating-decrements, floored at 1. -/
def update_miner_multiplier (grace : Int) (multiplier : Nat) (last_proof_at now : Int) : Nat :=
  let target_time : Int := last_proof_at + (ONE_MINUTE : Nat)
  let liveness_threshold : Int := target_time + grace
  if now > liveness_threshold then
    max (multiplier - 1) 1
  else
    min (satAdd multiplier 1) 32

/-- compute_base_reward from program/src/miner/mine.rs (lines 206..225):
clamp multiplier/16 into [1,32] and raise it to the difficulty excess,
saturating, times the base rate. -/
def compute_base_reward (multiplier base_rate difficulty difficulty_attempt : Nat) : Nat :=
  let consistency_multiplier := min (max (multiplier / 16) 1) 32
  let difficulty_excess := difficulty_attempt - difficulty
  satMul (satPow consistency_multiplier difficulty_excess) base_rate

/-- penalize_lateness from program/src/miner/mine.rs (lines 237..270):
past the grace window, halve per full late minute and subtract a linear
fraction for the remaining seconds.  The u32 cast of `late_minutes` in
`saturating_pow` is kept as `% 2^32`. -/
def penalize_lateness (grace : Int) (base_reward : Nat) (last_proof_at now : Int) : Nat :=
  let target_time : Int := last_proof_at + (ONE_MINUTE : Nat)
  let liveness_threshold : Int := target_time + grace
  if now > liveness_threshold then
    let late_seconds : Nat := (now - target_time).toNat
    let late_minutes : Nat := late_seconds / ONE_MINUTE
    let r1 := if late_minutes > 0 then
        base_reward / satPow 2 (late_minutes % 2 ^ 32)
      else base_reward
    let extra_seconds := late_seconds - late_minutes * ONE_MINUTE
    if extra_seconds > 0 ∧ r1 > 0 then
      r1 - satMul (r1 / 2) extra_seconds / ONE_MINUTE
    else r1
  else base_reward

/-- compute_final_reward from program/src/miner/mine.rs (lines 273..283):
cap the penalized reward by the available rewards and the target rate. -/
def compute_final_reward (penalized_reward theoretical_rewards target_rate : Nat) : Nat :=
  min (min penalized_reward theoretical_rewards) target_rate

/-- adjust_participation from program/src/miner/mine.rs (lines 341..353);
the field it calls `target_unique` is the Epoch record's
`target_participation`. -/
def adjust_participation (epoch : Epoch) : Epoch :=
  if epoch.duplicates = 0 then
    { epoch with target_participation := satAdd epoch.target_participation 1 }
  else
    { epoch with target_participation := epoch.target_participation - 1 }

/-- adjust_difficulty from program/src/miner/mine.rs (lines 314..331);
i64 division truncates toward zero, hence `Int.tdiv`. -/
def adjust_difficulty (epoch : Epoch) (now : Int) : Epoch :=
  let elapsed_time := now - epoch.last_epoch_at
  let average_time_per_block := Int.tdiv elapsed_time (EPOCH_BLOCKS : Nat)
  if average_time_per_block < (BLOCK_DURATION_SECONDS : Nat) then
    { epoch with target_difficulty := satAdd epoch.target_difficulty 1 }
  else
    { epoch with target_difficulty := epoch.target_difficulty - 1 }

/-- advance_epoch from program/src/miner/mine.rs (lines 288..304):
adjust participation then difficulty, bump the number, clamp the targets
from below, reset progress and duplicates, stamp the time. -/
def advance_epoch (epoch : Epoch) (now : Int) : Epoch :=
  let e := adjust_difficulty (adjust_participation epoch) now
  { e with
      number := satAdd e.number 1
      target_difficulty := max e.target_difficulty 7
      target_participation := max e.target_participation 1
      progress := 0
      duplicates := 0
      last_epoch_at := now }

/-- compute_next_challenge from api/src/utils.rs: keccak of the current
challenge followed by the first SlotHash entry; the hash is the abstract
argument `H`. -/
def compute_next_challenge (H : List Nat → List Nat) (current_challenge slothash : List Nat) :
    List Nat :=
  H (current_challenge ++ slothash)

/-- compute_challenge from api/src/utils.rs: keccak of the block challenge
followed by the miner challenge. -/
def compute_challenge (H : List Nat → List Nat) (block_challenge miner_challenge : List Nat) :
    List Nat :=
  H (block_challenge ++ miner_challenge)

/-- compute_recall_tape from api/src/utils.rs. -/
def compute_recall_tape (challenge : List Nat) (total_tapes : Nat) : Nat :=
  if total_tapes = 0 then 1
  else max ((challenge.take 8).foldr (fun b acc => acc * 256 + b) 0 % total_tapes) 1

/-- compute_recall_segment from api/src/utils.rs. -/
def compute_recall_segment (challenge : List Nat) (total_segments : Nat) : Nat :=
  if total_segments = 0 then 0
  else ((challenge.drop 8).take 8).foldr (fun b acc => acc * 256 + b) 0 % total_segments

/-- Values process_mine reads that exist nowhere in the records under src/:
`epoch.base_rate`, `epoch.difficulty`, `epoch.target_rate` and
`spool.available_rewards` (the Epoch record has no such fields and no
`spool` is in scope in mine.rs), and the undefined GRACE_PERIOD_SECONDS. -/
structure MineExtra where
  base_rate : Nat
  difficulty : Nat
  target_rate : Nat
  available_rewards : Nat
  grace : Int
  deriving Repr, DecidableEq

/-- The effect of an accepted Mine (program/src/miner/mine.rs lines
113..175), after all validations: update the multiplier, credit the
reward, bump the proof counters, re-randomize both challenges, and advance
or progress the epoch.  The fourth component is the credited
final_reward.  Note: the block number and progress are never written; the
block challenge is replaced on every accepted proof. -/
def process_mine_effect (H : List Nat → List Nat) (slothash : List Nat)
    (extra : MineExtra) (difficulty_attempt : Nat) (archive : Archive)
    (epoch : Epoch) (block : Block) (miner : Miner) (now : Int) :
    Epoch × Block × Miner × Nat :=
  let newMult := update_miner_multiplier extra.grace miner.multiplier miner.last_proof_at now
  let base_reward := compute_base_reward newMult extra.base_rate extra.difficulty difficulty_attempt
  let penalized := penalize_lateness extra.grace base_reward miner.last_proof_at now
  let final_reward := compute_final_reward penalized extra.available_rewards extra.target_rate
  let miner2 : Miner :=
    { miner with
        multiplier := newMult
        unclaimed_rewards := miner.unclaimed_rewards + final_reward
        total_rewards := miner.total_rewards + final_reward
        total_proofs := miner.total_proofs + 1
        last_proof_at := max now (miner.last_proof_at + (ONE_MINUTE : Nat))
        current_challenge := compute_next_challenge H miner.current_challenge slothash }
  let block2 : Block :=
    { block with challenge := compute_next_challenge H block.challenge slothash }
  let epoch2 : Epoch :=
    if epoch.progress ≥ EPOCH_BLOCKS then
      let e := advance_epoch epoch now
      { e with
          reward_rate := satAdd (get_storage_rate archive.bytes_stored)
            (get_inflation_rate e.number) }
    else
      { epoch with progress := satAdd epoch.progress 1 }
  (epoch2, block2, miner2, final_reward)

/-- InstructionType from api/src/instruction.rs: a u8 enum with implicit
discriminants Unknown=0, Initialize=1, Advance=2, Create=3, Write=4,
Finalize=5, Register=6, Close=7, Mine=8, Claim=9.  There is no Update
variant in the enum. -/
inductive InstructionType where
  | Unknown
  | InitializeIx
  | Advance
  | Create
  | Write
  | Finalize
  | Register
  | Close
  | Mine
  | Claim
  deriving Repr, DecidableEq

/-- The u8 discriminant of each InstructionType variant. -/
def instructionTypeToByte : InstructionType → Nat
  | InstructionType.Unknown => 0
  | InstructionType.InitializeIx => 1
  | InstructionType.Advance => 2
  | InstructionType.Create => 3
  | InstructionType.Write => 4
  | InstructionType.Finalize => 5
  | InstructionType.Register => 6
  | InstructionType.Close => 7
  | InstructionType.Mine => 8
  | InstructionType.Claim => 9

/-- InstructionType::try_from on a u8 (TryFromPrimitive): the inverse of
the discriminant map, failing on bytes 10..255. -/
def instructionTypeOfByte : Nat → Option InstructionType
  | 0 => some InstructionType.Unknown
  | 1 => some InstructionType.InitializeIx
  | 2 => some InstructionType.Advance
  | 3 => some InstructionType.Create
  | 4 => some InstructionType.Write
  | 5 => some InstructionType.Finalize
  | 6 => some InstructionType.Register
  | 7 => some InstructionType.Close
  | 8 => some InstructionType.Mine
  | 9 => some InstructionType.Claim
  | _ => none

/-- steel's parse_instruction as used by program/src/lib.rs: split off the
one-byte discriminator, decode it, and hand the rest to the handler. -/
def parse_instruction (data : List Nat) : Option (InstructionType × List Nat) :=
  match data with
  | [] => none
  | b :: rest =>
      match instructionTypeOfByte b with
      | none => none
      | some ix => some (ix, rest)

/-- The handlers reachable from the dispatch switch in
program/src/lib.rs. -/
inductive Handler where
  | hInit
  | hCreate
  | hWrite
  | hUpdate
  | hFinalize
  | hRegister
  | hClose
  | hMine
  | hClaim
  deriving Repr, DecidableEq

/-- The dispatch switch of process_instruction (program/src/lib.rs lines
21..38) restricted to the variants that exist in InstructionType: match
arms map Initialize, Create, Write, Finalize, Register, Close, Mine and
Claim to their handlers; Unknown and Advance fall to the default arm
(InvalidInstructionData), modelled as `none`.  (lib.rs also names an arm
`InstructionType::Update`, a variant the enum does not declare, so that
arm is unreachable as written.) -/
def dispatch : InstructionType → Option Handler
  | InstructionType.InitializeIx => some Handler.hInit
  | InstructionType.Create => some Handler.hCreate
  | InstructionType.Write => some Handler.hWrite
  | InstructionType.Finalize => some Handler.hFinalize
  | InstructionType.Register => some Handler.hRegister
  | InstructionType.Close => some Handler.hClose
  | InstructionType.Mine => some Handler.hMine
  | InstructionType.Claim => some Handler.hClaim
  | _ => none

/-- Result of ParsedWrite::try_from_bytes (api/src/instruction.rs lines
83..93).  The function indexes `data[0..64]` unconditionally, so a payload
shorter than 64 bytes panics on the slice bound instead of returning a
typed error; `panicked` marks that branch. -/
inductive ParseWriteResult where
  | panicked
  | parsed (prev_segment : List Nat) (data : List Nat)
  deriving Repr, DecidableEq

/-- ParsedWrite::try_from_bytes: the first 64 bytes become `prev_segment`,
the remainder the write data; fewer than 64 bytes panic. -/
def parsedWrite_try_from_bytes (data : List Nat) : ParseWriteResult :=
  if data.length < 64 then ParseWriteResult.panicked
  else ParseWriteResult.parsed (data.take 64) (data.drop 64)

/-- The projection of on-chain state the tape lifecycle touches: the
Archive singleton and each created tape with its writer tree. -/
structure SysState where
  archive : Archive
  tapes : List (Tape × MerkleTreeM)

/-- A freshly created tape (process_create, program/src/tape/create.rs):
number 0, state Created, zero counters and zero root; the rest of the
account is zero-initialized by the runtime. -/
def createdTape (authority : Nat) (name seed : List Nat) : Tape :=
  { number := 0
    state := tapeStateCreated
    layout := 0
    authority := authority
    name := name
    merkle_seed := seed
    merkle_root := List.replicate 32 0
    opaqueData := List.replicate 64 0
    total_segments := 0
    total_size := 0 }

/-- The states reachable by the tape-lifecycle operations, starting from
the initialized Archive (process_initialize sets tapes_stored = 0).
Write and Finalize step through their embedded processors; Update
(program/src/tape/update.rs) is over-approximated: it requires the tape
to be Created or Writing and may replace the Merkle root and writer tree
but touches neither `state`, `number` nor the Archive. -/
inductive Reachable (rootFn : List (List Nat) → List Nat) : SysState → Prop where
  | init : Reachable rootFn ⟨⟨0, 0⟩, []⟩
  | create (s : SysState) (authority : Nat) (name seed : List Nat) :
      Reachable rootFn s →
      Reachable rootFn ⟨s.archive, s.tapes ++ [(createdTape authority name seed, ⟨[]⟩)]⟩
  | write (s : SysState) (i signer : Nat) (data : List Nat)
      (t t2 : Tape) (w w2 : MerkleTreeM) :
      Reachable rootFn s →
      s.tapes.get? i = some (t, w) →
      process_write rootFn signer t w data = Except.ok (t2, w2) →
      Reachable rootFn ⟨s.archive, s.tapes.set i (t2, w2)⟩
  | update (s : SysState) (i : Nat) (t : Tape) (w w2 : MerkleTreeM) (r : List Nat) :
      Reachable rootFn s →
      s.tapes.get? i = some (t, w) →
      (t.state = tapeStateCreated ∨ t.state = tapeStateWriting) →
      Reachable rootFn ⟨s.archive, s.tapes.set i ({ t with merkle_root := r }, w2)⟩
  | finalize (s : SysState) (i signer : Nat) (argOpaque : List Nat)
      (t t2 : Tape) (w : MerkleTreeM) (a2 : Archive) :
      Reachable rootFn s →
      s.tapes.get? i = some (t, w) →
      process_finalize rootFn signer t w s.archive argOpaque = Except.ok (t2, a2) →
      Reachable rootFn ⟨a2, s.tapes.set i (t2, w)⟩

/-- The tape numbers of the finalized tapes, in list order. -/
def finalizedNumbers (ts : List (Tape × MerkleTreeM)) : List Nat :=
  (ts.filter (fun p => p.1.state == tapeStateFinalized)).map (fun p => p.1.number)

/-- The Archive/tape-number invariant: `tapes_stored` counts the finalized
tapes, their numbers are exactly 1..tapes_stored, and a non-finalized
tape has number 0. -/
def ArchiveInv (s : SysState) : Prop :=
  s.archive.tapes_stored = (finalizedNumbers s.tapes).length ∧
  (finalizedNumbers s.tapes).Perm (List.range' 1 s.archive.tapes_stored) ∧
  ∀ p ∈ s.tapes, p.1.state ≠ tapeStateFinalized → p.1.number = 0

/-- C4: the claim says get_storage_rate saturates at 20·10^10 for every
input of at least 1 PiB and is monotonically non-decreasing.  The code
returns 20 base units there — contradicting its own inline comment
(`+1.0 PiB ~ 20.00000000 TAPE/min`, which at 10 decimals is 2·10^11) and
dropping below the previous bucket value, so the curve is not
monotone.  This theorem evaluates the code at the failing input. -/
theorem c4_storage_rate_saturation_bug :
    get_storage_rate 1048575999999999 = 190258751903 ∧
    get_storage_rate 1048576000000000 = 20 ∧
    get_storage_rate 1048576000000000 < get_storage_rate 1048575999999999 ∧
    get_storage_rate 1048576000000000 ≠ 20 * 10 ^ 10 := by
  refine ⟨by decide, by decide, by decide, by decide⟩

/-- C8: the claim's discriminator table (Update=5, Finalize=6, Register=7,
Close=8, Mine=9, Claim=10) does not match api/src/instruction.rs, whose
enum has no Update variant: byte 5 decodes to Finalize, Claim is 9, and
byte 10 decodes to nothing; the dispatch switch sends Advance to the
default error arm.  This theorem evaluates the decoder at the failing
bytes. -/
theorem c8_discriminator_divergence :
    instructionTypeOfByte 5 = some InstructionType.Finalize ∧
    instructionTypeOfByte 6 = some InstructionType.Register ∧
    instructionTypeOfByte 7 = some InstructionType.Close ∧
    instructionTypeOfByte 8 = some InstructionType.Mine ∧
    instructionTypeOfByte 9 = some InstructionType.Claim ∧
    instructionTypeOfByte 10 = none ∧
    dispatch InstructionType.Advance = none := by
  refine ⟨rfl, rfl, rfl, rfl, rfl, rfl, rfl⟩

/-- C10: a Write instruction whose payload after the discriminator byte is
shorter than 64 bytes is dispatched to the Write handler, whose first step
(ParsedWrite::try_from_bytes) hits the out-of-bounds slice index
`data[0..64]` — the panic branch of the embedding — rather than a typed
error. -/
theorem c10_short_write_payload_panics (rest : List Nat) (h : rest.length < 64) :
    parse_instruction (4 :: rest) = some (InstructionType.Write, rest) ∧
    dispatch InstructionType.Write = some Handler.hWrite ∧
    parsedWrite_try_from_bytes rest = ParseWriteResult.panicked := by
  refine ⟨rfl, rfl, ?_⟩
  unfold parsedWrite_try_from_bytes
  simp [h]

/-- Witness for C10 at the 3-byte payload [0,0,0]. -/
theorem c10_witness :
    ([(0 : Nat), 0, 0].length < 64) ∧
    (parse_instruction (4 :: [0, 0, 0]) = some (InstructionType.Write, [0, 0, 0]) ∧
     dispatch InstructionType.Write = some Handler.hWrite ∧
     parsedWrite_try_from_bytes [0, 0, 0] = ParseWriteResult.panicked) :=
  ⟨by decide, c10_short_write_payload_panics [0, 0, 0] (by decide)⟩

/-- C7: process_claim succeeds exactly when the requested amount is at
most `unclaimed_rewards`; on success the balance decreases by exactly the
amount and exactly that amount is transferred (the second component);
otherwise it fails with ClaimTooLarge, and the failed operation writes no
state. -/
theorem c7_claim_exact (miner : Miner) (amount : Nat) :
    ((∃ res, process_claim miner amount = Except.ok res) ↔
        amount ≤ miner.unclaimed_rewards) ∧
    (amount ≤ miner.unclaimed_rewards →
      process_claim miner amount =
        Except.ok ({ miner with
          unclaimed_rewards := miner.unclaimed_rewards - amount }, amount)) ∧
    (miner.unclaimed_rewards < amount →
      process_claim miner amount = Except.error TapeErr.ClaimTooLarge) := by
  unfold process_claim
  by_cases h : amount ≤ miner.unclaimed_rewards
  · refine ⟨⟨fun _ => h,
      fun _ => ⟨({ miner with
        unclaimed_rewards := miner.unclaimed_rewards - amount }, amount), by simp [h]⟩⟩,
      fun _ => by simp [h], fun hc => ?_⟩
    exact absurd h (Nat.not_le.mpr hc)
  · refine ⟨⟨?_, fun hle => absurd hle h⟩, fun hle => absurd hle h, fun _ => by simp [h]⟩
    rintro ⟨res, hres⟩
    simp [h] at hres

/-- Witness for C7: claiming 3 of 5 leaves 2 and transfers 3; claiming 7
of 5 fails ClaimTooLarge. -/
theorem c7_witness :
    (process_claim ⟨0, [], 5, [], 0, 1, [], 0, 0, 0⟩ 3 =
      Except.ok (⟨0, [], 2, [], 0, 1, [], 0, 0, 0⟩, 3)) ∧
    (process_claim ⟨0, [], 5, [], 0, 1, [], 0, 0, 0⟩ 7 =
      Except.error TapeErr.ClaimTooLarge) :=
  ⟨(c7_claim_exact ⟨0, [], 5, [], 0, 1, [], 0, 0, 0⟩ 3).2.1 (by decide),
   (c7_claim_exact ⟨0, [], 5, [], 0, 1, [], 0, 0, 0⟩ 7).2.2 (by decide)⟩

/-- C2 counterexample: the multiplier update of program/src/miner/mine.rs
takes no block number at all (the Miner record has no last_proof_block
field); it branches on the submission time.  With identical miner state —
so identical `last_proof_block`/`block.number` under any reading — the
result differs between an on-time call (5 becomes 6) and a late call
(5 becomes 4), refuting an update determined by
`miner.last_proof_block == block.number`. -/
theorem c2_counterexample :
    update_miner_multiplier 0 5 0 0 = 6 ∧
    update_miner_multiplier 0 5 0 1000 = 4 := by
  refine ⟨by decide, by decide⟩

/-- C2 amended: if `now` is past `last_proof_at + ONE_MINUTE +
GRACE_PERIOD_SECONDS` the multiplier becomes max(multiplier−1, 1),
otherwise min(multiplier+1, 32); consequently, whenever the multiplier was
at most 32 before the call it lies in [1, 32] afterwards. -/
theorem c2_multiplier_update (grace : Int) (m : Nat) (last now : Int) (h : m ≤ 32) :
    update_miner_multiplier grace m last now =
      (if now > last + (ONE_MINUTE : Nat) + grace then max (m - 1) 1 else min (m + 1) 32) ∧
    1 ≤ update_miner_multiplier grace m last now ∧
    update_miner_multiplier grace m last now ≤ 32 := by
  have hsat : satAdd m 1 = m + 1 := by
    unfold satAdd U64MAX
    have h2 : (2 : Nat) ^ 64 = 18446744073709551616 := by norm_num
    omega
  have he : update_miner_multiplier grace m last now =
      if now > last + (ONE_MINUTE : Nat) + grace then max (m - 1) 1
      else min (satAdd m 1) 32 := rfl
  rw [he, hsat]
  split
  · exact ⟨rfl, by omega, by omega⟩
  · exact ⟨rfl, by omega, by omega⟩

/-- Witness for C2 at grace 0, multiplier 5, last proof at 0, now 0. -/
theorem c2_witness :
    ((5 : Nat) ≤ 32) ∧
    (update_miner_multiplier 0 5 0 0 =
      (if (0 : Int) > 0 + (ONE_MINUTE : Nat) + 0 then max (5 - 1) 1 else min (5 + 1) 32) ∧
     1 ≤ update_miner_multiplier 0 5 0 0 ∧
     update_miner_multiplier 0 5 0 0 ≤ 32) :=
  ⟨by decide, c2_multiplier_update 0 5 0 0 (by decide)⟩

/-- C1 counterexample: with epoch.reward_rate = 3200 and a miner at
multiplier 16 submitting on time with difficulty excess 0, process_mine
credits base_rate-derived 3200, while the claimed formula
`epoch.reward_rate · multiplier / 32` gives 1600 (old multiplier 16) or
1700 (updated multiplier 17).  The reward path never reads
`epoch.reward_rate` at all. -/
theorem c1_counterexample :
    ((process_mine_effect (fun l => l) [] ⟨3200, 5, 1000000, 1000000, 0⟩ 5
        ⟨1, 0⟩ ⟨0, 0, 0, 0, 3200, 0, 0⟩ ⟨0, 0, [0], 0, 0, 0⟩
        ⟨0, [], 0, [0], 0, 16, [], 0, 0, 0⟩ 0).2.2.1.unclaimed_rewards = 3200) ∧
    ((process_mine_effect (fun l => l) [] ⟨3200, 5, 1000000, 1000000, 0⟩ 5
        ⟨1, 0⟩ ⟨0, 0, 0, 0, 3200, 0, 0⟩ ⟨0, 0, [0], 0, 0, 0⟩
        ⟨0, [], 0, [0], 0, 16, [], 0, 0, 0⟩ 0).2.2.1.multiplier = 17) ∧
    (3200 : Nat) ≠ 3200 * 16 / 32 ∧
    (3200 : Nat) ≠ 3200 * 17 / 32 := by
  refine ⟨by decide, by decide, by decide, by decide⟩

/-- C1 amended: an accepted Mine credits
`compute_final_reward (penalize_lateness grace (compute_base_reward
updated_multiplier base_rate difficulty attempt) last_proof_at now)
available_rewards target_rate` — the difficulty-excess power of the
clamped multiplier/16, lateness-penalized and capped — and both
`unclaimed_rewards` and `total_rewards` increase by exactly that amount;
the credited reward never exceeds the target rate nor the available
rewards. -/
theorem c1_mine_reward_exact (H : List Nat → List Nat) (slothash : List Nat)
    (extra : MineExtra) (attempt : Nat) (archive : Archive) (epoch : Epoch)
    (block : Block) (miner : Miner) (now : Int) :
    ((process_mine_effect H slothash extra attempt archive epoch block miner
        now).2.2.1.unclaimed_rewards =
      miner.unclaimed_rewards +
        compute_final_reward
          (penalize_lateness extra.grace
            (compute_base_reward
              (update_miner_multiplier extra.grace miner.multiplier miner.last_proof_at now)
              extra.base_rate extra.difficulty attempt)
            miner.last_proof_at now)
          extra.available_rewards extra.target_rate) ∧
    ((process_mine_effect H slothash extra attempt archive epoch block miner
        now).2.2.1.total_rewards =
      miner.total_rewards +
        compute_final_reward
          (penalize_lateness extra.grace
            (compute_base_reward
              (update_miner_multiplier extra.grace miner.multiplier miner.last_proof_at now)
              extra.base_rate extra.difficulty attempt)
            miner.last_proof_at now)
          extra.available_rewards extra.target_rate) ∧
    ((process_mine_effect H slothash extra attempt archive epoch block miner
        now).2.2.2 ≤ extra.target_rate) ∧
    ((process_mine_effect H slothash extra attempt archive epoch block miner
        now).2.2.2 ≤ extra.available_rewards) := by
  refine ⟨rfl, rfl, ?_, ?_⟩
  · exact min_le_right _ _
  · exact le_trans (min_le_left _ _) (min_le_right _ _)

/-- C3 counterexample: block.progress = 3 is below the participation
target 5, so the claim predicts progress becomes 4 and the challenge is
untouched; the code leaves progress at 3 and replaces the challenge on
every accepted proof. -/
theorem c3_counterexample :
    ((process_mine_effect (fun l => 1 :: l) [] ⟨0, 0, 0, 0, 0⟩ 0 ⟨1, 0⟩
        ⟨0, 0, 0, 5, 0, 0, 0⟩ ⟨7, 3, [0], 0, 0, 0⟩
        ⟨0, [], 0, [0], 0, 1, [], 0, 0, 0⟩ 0).2.1.progress = 3) ∧
    (3 : Nat) ≠ 3 + 1 ∧
    ((process_mine_effect (fun l => 1 :: l) [] ⟨0, 0, 0, 0, 0⟩ 0 ⟨1, 0⟩
        ⟨0, 0, 0, 5, 0, 0, 0⟩ ⟨7, 3, [0], 0, 0, 0⟩
        ⟨0, [], 0, [0], 0, 1, [], 0, 0, 0⟩ 0).2.1.challenge = [1, 0]) ∧
    [(1 : Nat), 0] ≠ [(0 : Nat)] := by
  refine ⟨by decide, by decide, by decide, by decide⟩

/-- C3 amended: an accepted Mine never touches block.number,
block.progress or the block timestamps; it unconditionally sets
block.challenge to `next_challenge(block.challenge, slot_hashes)`.  The
rolling happens on the Epoch instead: when epoch.progress has reached
EPOCH_BLOCKS the epoch advances (and the reward rate is recomputed from
the storage and inflation curves), otherwise epoch.progress
saturating-increments by 1. -/
theorem c3_mine_block_frame (H : List Nat → List Nat) (slothash : List Nat)
    (extra : MineExtra) (attempt : Nat) (archive : Archive) (epoch : Epoch)
    (block : Block) (miner : Miner) (now : Int) :
    ((process_mine_effect H slothash extra attempt archive epoch block miner
        now).2.1.number = block.number) ∧
    ((process_mine_effect H slothash extra attempt archive epoch block miner
        now).2.1.progress = block.progress) ∧
    ((process_mine_effect H slothash extra attempt archive epoch block miner
        now).2.1.last_proof_at = block.last_proof_at) ∧
    ((process_mine_effect H slothash extra attempt archive epoch block miner
        now).2.1.last_block_at = block.last_block_at) ∧
    ((process_mine_effect H slothash extra attempt archive epoch block miner
        now).2.1.challenge = compute_next_challenge H block.challenge slothash) ∧
    ((process_mine_effect H slothash extra attempt archive epoch block miner
        now).1 =
      if epoch.progress ≥ EPOCH_BLOCKS then
        { advance_epoch epoch now with
            reward_rate := satAdd (get_storage_rate archive.bytes_stored)
              (get_inflation_rate (advance_epoch epoch now).number) }
      else { epoch with progress := satAdd epoch.progress 1 }) := by
  exact ⟨rfl, rfl, rfl, rfl, rfl, rfl⟩

/-- The leaves the write loop of process_write appends on success: one per
chunk, numbered consecutively from `start`, each chunk zero-padded to
SEGMENT_SIZE. -/
def expectedLeaves (start : Nat) (segs : List (List Nat)) : List (List Nat) :=
  match segs with
  | [] => []
  | s :: rest =>
      compute_leaf start (padded_array SEGMENT_SIZE s) :: expectedLeaves (start + 1) rest

/-- A successful write_segment appends exactly the computed leaf. -/
theorem write_segment_ok_leaves (tree : MerkleTreeM) (sid : Nat) (seg : List Nat)
    (t1 : MerkleTreeM) (h : write_segment tree sid seg = Except.ok t1) :
    t1.leaves = tree.leaves ++ [compute_leaf sid seg] := by
  unfold write_segment try_add_leaf at h
  by_cases hc : tree.leaves.length < 2 ^ TREE_HEIGHT
  · rw [if_pos hc] at h
    simp only [Except.ok.injEq] at h
    subst h
    rfl
  · rw [if_neg hc] at h
    simp at h

/-- A successful write loop appends exactly the expected leaves, in order. -/
theorem write_segments_ok_leaves (segs : List (List Nat)) :
    ∀ tree start t2, write_segments tree start segs = Except.ok t2 →
      t2.leaves = tree.leaves ++ expectedLeaves start segs := by
  induction segs with
  | nil =>
      intro tree start t2 h
      simp only [write_segments, Except.ok.injEq] at h
      subst h
      simp [expectedLeaves]
  | cons s rest ih =>
      intro tree start t2 h
      unfold write_segments at h
      cases hw : write_segment tree start (padded_array SEGMENT_SIZE s) with
      | error e => rw [hw] at h; simp at h
      | ok t1 =>
          rw [hw] at h
          have h1 := write_segment_ok_leaves tree start (padded_array SEGMENT_SIZE s) t1 hw
          have h2 := ih t1 (start + 1) t2 h
          rw [h2, h1]
          simp [expectedLeaves]

/-- The write loop appends one leaf per chunk. -/
theorem expectedLeaves_length (segs : List (List Nat)) :
    ∀ start, (expectedLeaves start segs).length = segs.length := by
  induction segs with
  | nil => intro start; rfl
  | cons s rest ih => intro start; simp [expectedLeaves, ih]

/-- expectedLeaves distributes over list append, shifting the index. -/
theorem expectedLeaves_append (l1 : List (List Nat)) :
    ∀ l2 start, expectedLeaves start (l1 ++ l2) =
      expectedLeaves start l1 ++ expectedLeaves (start + l1.length) l2 := by
  induction l1 with
  | nil => intro l2 start; simp [expectedLeaves]
  | cons s rest ih =>
      intro l2 start
      have hx : start + 1 + rest.length = start + (rest.length + 1) := by omega
      simp only [List.cons_append, expectedLeaves, List.length_cons, List.append_eq]
      rw [ih l2 (start + 1), hx]

/-- Closed form of the expected leaves of a range-indexed chunk list. -/
theorem expectedLeaves_map_range (g : Nat → List Nat) (k : Nat) :
    ∀ start, expectedLeaves start ((List.range k).map g) =
      (List.range k).map
        (fun i => compute_leaf (start + i) (padded_array SEGMENT_SIZE (g i))) := by
  induction k with
  | zero => intro start; simp [expectedLeaves]
  | succ k ih =>
      intro start
      rw [List.range_succ, List.map_append, expectedLeaves_append, ih start,
        List.map_append]
      simp [expectedLeaves]

/-- The number of SEGMENT_SIZE chunks is ceil(len/SEGMENT_SIZE). -/
theorem chunks_length (n : Nat) (l : List Nat) :
    (chunks n l).length = (l.length + n - 1) / n := by
  simp [chunks]

/-- The i-th chunk, for i below the chunk count. -/
theorem chunks_getD (n : Nat) (l : List Nat) (i : Nat) (h : i < (chunks n l).length) :
    (chunks n l).getD i [] = (l.drop (n * i)).take n := by
  rw [List.getD_eq_getElem _ _ h]
  unfold chunks
  rw [List.getElem_map, List.getElem_range]

/-- Anatomy of a successful process_write: the preconditions held, the
write loop succeeded, and the returned tape is the input tape with the
counters advanced, the root refreshed, the first 64 data bytes stored and
the state set to Writing. -/
theorem process_write_ok_spec (rootFn : List (List Nat) → List Nat) (signer : Nat)
    (tape : Tape) (writer : MerkleTreeM) (data : List Nat) (tape2 : Tape)
    (writer2 : MerkleTreeM)
    (h : process_write rootFn signer tape writer data = Except.ok (tape2, writer2)) :
    (tape.state = tapeStateCreated ∨ tape.state = tapeStateWriting) ∧
    write_segments writer tape.total_segments (chunks SEGMENT_SIZE data) =
      Except.ok writer2 ∧
    tape2 = { tape with
        total_segments := tape.total_segments + (chunks SEGMENT_SIZE data).length
        total_size := tape.total_size + data.length
        merkle_root := rootFn writer2.leaves
        opaqueData := padded_array 64 data
        state := tapeStateWriting } := by
  unfold process_write at h
  by_cases ha : tape.authority ≠ signer
  · rw [if_pos ha] at h
    simp at h
  · rw [if_neg ha] at h
    by_cases hs : ¬(tape.state = tapeStateCreated ∨ tape.state = tapeStateWriting)
    · rw [if_pos hs] at h
      simp at h
    · rw [if_neg hs] at h
      cases hw : write_segments writer tape.total_segments (chunks SEGMENT_SIZE data) with
      | error e => rw [hw] at h; simp at h
      | ok w2 =>
          rw [hw] at h
          simp only [Except.ok.injEq, Prod.mk.injEq] at h
          obtain ⟨h1, h2⟩ := h
          subst h2
          exact ⟨not_not.mp hs, rfl, h1.symm⟩

/-- C5: a successful Write of (non-empty) data on a Created-or-Writing
tape adds exactly ceil(len/SEGMENT_SIZE) segments and len bytes, appends
the leaves `compute_leaf (previous_total_segments + i) chunk_i` with each
chunk zero-padded to SEGMENT_SIZE, refreshes the Merkle root from the
writer tree, and moves the tape to Writing. -/
theorem c5_write_effect (rootFn : List (List Nat) → List Nat) (signer : Nat)
    (tape : Tape) (writer : MerkleTreeM) (data : List Nat) (tape2 : Tape)
    (writer2 : MerkleTreeM) (hne : data ≠ [])
    (h : process_write rootFn signer tape writer data = Except.ok (tape2, writer2)) :
    (tape.state = tapeStateCreated ∨ tape.state = tapeStateWriting) ∧
    tape2.total_segments =
      tape.total_segments + (data.length + SEGMENT_SIZE - 1) / SEGMENT_SIZE ∧
    tape2.total_size = tape.total_size + data.length ∧
    writer2.leaves = writer.leaves ++
      (List.range ((data.length + SEGMENT_SIZE - 1) / SEGMENT_SIZE)).map
        (fun i => compute_leaf (tape.total_segments + i)
          (padded_array SEGMENT_SIZE ((data.drop (SEGMENT_SIZE * i)).take SEGMENT_SIZE))) ∧
    tape2.merkle_root = rootFn writer2.leaves ∧
    tape2.state = tapeStateWriting := by
  obtain ⟨hst, hw, ht⟩ :=
    process_write_ok_spec rootFn signer tape writer data tape2 writer2 h
  subst ht
  refine ⟨hst, ?_, rfl, ?_, rfl, rfl⟩
  · show tape.total_segments + (chunks SEGMENT_SIZE data).length = _
    rw [chunks_length]
  · rw [write_segments_ok_leaves (chunks SEGMENT_SIZE data) writer tape.total_segments
      writer2 hw]
    congr 1
    unfold chunks
    rw [expectedLeaves_map_range]

/-- Witness for C5: writing the 3 bytes [1,2,3] to a fresh tape appends
one zero-padded segment. -/
theorem c5_witness :
    (([1, 2, 3] : List Nat) ≠ []) ∧
    (process_write (fun _ => [9]) 7 (createdTape 7 [] []) ⟨[]⟩ [1, 2, 3] =
      Except.ok
        ({ createdTape 7 [] [] with
            total_segments := 1
            total_size := 3
            merkle_root := [9]
            opaqueData := padded_array 64 [1, 2, 3]
            state := tapeStateWriting },
         ⟨[compute_leaf 0 (padded_array SEGMENT_SIZE [1, 2, 3])]⟩)) ∧
    (((createdTape 7 [] []).state = tapeStateCreated ∨
        (createdTape 7 [] []).state = tapeStateWriting) ∧
      ({ createdTape 7 [] [] with
          total_segments := 1
          total_size := 3
          merkle_root := [9]
          opaqueData := padded_array 64 [1, 2, 3]
          state := tapeStateWriting } : Tape).total_segments =
        (createdTape 7 [] []).total_segments +
          (([1, 2, 3] : List Nat).length + SEGMENT_SIZE - 1) / SEGMENT_SIZE ∧
      ({ createdTape 7 [] [] with
          total_segments := 1
          total_size := 3
          merkle_root := [9]
          opaqueData := padded_array 64 [1, 2, 3]
          state := tapeStateWriting } : Tape).total_size =
        (createdTape 7 [] []).total_size + ([1, 2, 3] : List Nat).length ∧
      (MerkleTreeM.leaves ⟨[compute_leaf 0 (padded_array SEGMENT_SIZE [1, 2, 3])]⟩ =
        MerkleTreeM.leaves ⟨[]⟩ ++
          (List.range ((([1, 2, 3] : List Nat).length + SEGMENT_SIZE - 1) / SEGMENT_SIZE)).map
            (fun i => compute_leaf ((createdTape 7 [] []).total_segments + i)
              (padded_array SEGMENT_SIZE
                ((([1, 2, 3] : List Nat).drop (SEGMENT_SIZE * i)).take SEGMENT_SIZE)))) ∧
      ({ createdTape 7 [] [] with
          total_segments := 1
          total_size := 3
          merkle_root := [9]
          opaqueData := padded_array 64 [1, 2, 3]
          state := tapeStateWriting } : Tape).merkle_root =
        (fun _ => [9]) (MerkleTreeM.leaves ⟨[compute_leaf 0 (padded_array SEGMENT_SIZE [1, 2, 3])]⟩) ∧
      ({ createdTape 7 [] [] with
          total_segments := 1
          total_size := 3
          merkle_root := [9]
          opaqueData := padded_array 64 [1, 2, 3]
          state := tapeStateWriting } : Tape).state = tapeStateWriting) :=
  ⟨by decide, by rfl,
    c5_write_effect (fun _ => [9]) 7 (createdTape 7 [] []) ⟨[]⟩ [1, 2, 3]
      ({ createdTape 7 [] [] with
          total_segments := 1
          total_size := 3
          merkle_root := [9]
          opaqueData := padded_array 64 [1, 2, 3]
          state := tapeStateWriting })
      ⟨[compute_leaf 0 (padded_array SEGMENT_SIZE [1, 2, 3])]⟩
      (by decide) (by rfl)⟩

/-- C9: every successful Write also overwrites tape.opaque_data with the
first 64 bytes of the written data, zero-padded to 64 bytes when the data
is shorter — a mutation outside the effect frame the specification lists
for Write. -/
theorem c9_write_overwrites_opaque (rootFn : List (List Nat) → List Nat) (signer : Nat)
    (tape : Tape) (writer : MerkleTreeM) (data : List Nat) (tape2 : Tape)
    (writer2 : MerkleTreeM)
    (h : process_write rootFn signer tape writer data = Except.ok (tape2, writer2)) :
    tape2.opaqueData = padded_array 64 data ∧
    padded_array 64 data = data.take 64 ++ List.replicate (64 - data.length) 0 := by
  obtain ⟨-, -, ht⟩ :=
    process_write_ok_spec rootFn signer tape writer data tape2 writer2 h
  subst ht
  exact ⟨rfl, rfl⟩

/-- Witness for C9 at the same concrete write as the C5 witness. -/
theorem c9_witness :
    (process_write (fun _ => [9]) 7 (createdTape 7 [] []) ⟨[]⟩ [1, 2, 3] =
      Except.ok
        ({ createdTape 7 [] [] with
            total_segments := 1
            total_size := 3
            merkle_root := [9]
            opaqueData := padded_array 64 [1, 2, 3]
            state := tapeStateWriting },
         ⟨[compute_leaf 0 (padded_array SEGMENT_SIZE [1, 2, 3])]⟩)) ∧
    (({ createdTape 7 [] [] with
        total_segments := 1
        total_size := 3
        merkle_root := [9]
        opaqueData := padded_array 64 [1, 2, 3]
        state := tapeStateWriting } : Tape).opaqueData = padded_array 64 [1, 2, 3] ∧
      padded_array 64 [1, 2, 3] =
        ([1, 2, 3] : List Nat).take 64 ++
          List.replicate (64 - ([1, 2, 3] : List Nat).length) 0) :=
  ⟨by rfl,
    c9_write_overwrites_opaque (fun _ => [9]) 7 (createdTape 7 [] []) ⟨[]⟩ [1, 2, 3]
      ({ createdTape 7 [] [] with
          total_segments := 1
          total_size := 3
          merkle_root := [9]
          opaqueData := padded_array 64 [1, 2, 3]
          state := tapeStateWriting })
      ⟨[compute_leaf 0 (padded_array SEGMENT_SIZE [1, 2, 3])]⟩
      (by rfl)⟩

/-- Anatomy of a successful process_finalize: the tape was in Writing
state, the Archive count is incremented and the tape receives the
incremented count as its number, moving to Finalized with the writer root
and the instruction argument copied in. -/
theorem process_finalize_ok_spec (rootFn : List (List Nat) → List Nat) (signer : Nat)
    (tape : Tape) (writer : MerkleTreeM) (archive : Archive) (argOpaque : List Nat)
    (t2 : Tape) (a2 : Archive)
    (h : process_finalize rootFn signer tape writer archive argOpaque =
      Except.ok (t2, a2)) :
    tape.state = tapeStateWriting ∧
    a2 = { archive with tapes_stored := archive.tapes_stored + 1 } ∧
    t2 = { tape with
        number := archive.tapes_stored + 1
        state := tapeStateFinalized
        merkle_root := rootFn writer.leaves
        opaqueData := argOpaque } := by
  unfold process_finalize at h
  by_cases ha : tape.authority ≠ signer
  · rw [if_pos ha] at h
    simp at h
  · rw [if_neg ha] at h
    by_cases hs : tape.state ≠ tapeStateWriting
    · rw [if_pos hs] at h
      simp at h
    · rw [if_neg hs] at h
      simp only [Except.ok.injEq, Prod.mk.injEq] at h
      obtain ⟨h1, h2⟩ := h
      exact ⟨not_not.mp hs, h2.symm, h1.symm⟩

/-- finalizedNumbers over a cons. -/
theorem finalizedNumbers_cons (p : Tape × MerkleTreeM) (ts : List (Tape × MerkleTreeM)) :
    finalizedNumbers (p :: ts) =
      if p.1.state = tapeStateFinalized then p.1.number :: finalizedNumbers ts
      else finalizedNumbers ts := by
  by_cases hp : p.1.state = tapeStateFinalized
  · simp [finalizedNumbers, List.filter_cons, hp]
  · simp [finalizedNumbers, List.filter_cons, hp]

/-- Replacing a non-finalized entry by another non-finalized entry leaves
the finalized numbers unchanged. -/
theorem finalizedNumbers_set_nonfinal (ts : List (Tape × MerkleTreeM)) :
    ∀ (i : Nat) (t : Tape) (w : MerkleTreeM) (t2 : Tape) (w2 : MerkleTreeM),
      ts.get? i = some (t, w) →
      t.state ≠ tapeStateFinalized → t2.state ≠ tapeStateFinalized →
      finalizedNumbers (ts.set i (t2, w2)) = finalizedNumbers ts := by
  induction ts with
  | nil => intro i t w t2 w2 h _ _; simp at h
  | cons p rest ih =>
      intro i t w t2 w2 h h1 h2
      cases i with
      | zero =>
          rw [List.get?_cons_zero, Option.some.injEq] at h
          subst h
          rw [List.set_cons_zero, finalizedNumbers_cons, finalizedNumbers_cons]
          simp [h1, h2]
      | succ i =>
          rw [List.get?_cons_succ] at h
          rw [List.set_cons_succ, finalizedNumbers_cons, finalizedNumbers_cons,
            ih i t w t2 w2 h h1 h2]

/-- Replacing a non-finalized entry by a finalized one adds exactly its
number to the finalized numbers, up to permutation. -/
theorem finalizedNumbers_set_final (ts : List (Tape × MerkleTreeM)) :
    ∀ (i : Nat) (t : Tape) (w : MerkleTreeM) (t2 : Tape) (w2 : MerkleTreeM),
      ts.get? i = some (t, w) →
      t.state ≠ tapeStateFinalized → t2.state = tapeStateFinalized →
      (finalizedNumbers (ts.set i (t2, w2))).Perm
        (t2.number :: finalizedNumbers ts) := by
  induction ts with
  | nil => intro i t w t2 w2 h _ _; simp at h
  | cons p rest ih =>
      intro i t w t2 w2 h h1 h2
      cases i with
      | zero =>
          rw [List.get?_cons_zero, Option.some.injEq] at h
          subst h
          rw [List.set_cons_zero, finalizedNumbers_cons, finalizedNumbers_cons]
          simp only [h2, if_pos, h1, if_neg]
          simp [h1]
      | succ i =>
          rw [List.get?_cons_succ] at h
          rw [List.set_cons_succ, finalizedNumbers_cons, finalizedNumbers_cons]
          by_cases hp : p.1.state = tapeStateFinalized
          · rw [if_pos hp, if_pos hp]
            exact ((ih i t w t2 w2 h h1 h2).cons p.1.number).trans
              (List.Perm.swap t2.number p.1.number (finalizedNumbers rest))
          · rw [if_neg hp, if_neg hp]
            exact ih i t w t2 w2 h h1 h2

/-- Created and Writing tapes are not Finalized. -/
theorem state_cw_ne_finalized (st : Nat)
    (h : st = tapeStateCreated ∨ st = tapeStateWriting) :
    st ≠ tapeStateFinalized := by
  unfold tapeStateCreated tapeStateWriting at h
  unfold tapeStateFinalized
  omega

/-- Every reachable tape-lifecycle state satisfies the Archive/tape-number
invariant. -/
theorem reachable_archiveInv (rootFn : List (List Nat) → List Nat) :
    ∀ s, Reachable rootFn s → ArchiveInv s := by
  intro s h
  induction h with
  | init => exact ⟨rfl, List.Perm.refl _, by intro p hp; simp at hp⟩
  | create s authority name seed hr ih =>
      obtain ⟨ih1, ih2, ih3⟩ := ih
      have hfn : finalizedNumbers (s.tapes ++ [(createdTape authority name seed, ⟨[]⟩)]) =
          finalizedNumbers s.tapes := by
        simp [finalizedNumbers, List.filter_append, createdTape,
          tapeStateCreated, tapeStateFinalized]
      refine ⟨by simpa [hfn] using ih1, by simpa [hfn] using ih2, ?_⟩
      intro p hp hnf
      rcases List.mem_append.mp hp with hmem | hmem
      · exact ih3 p hmem hnf
      · rcases List.mem_singleton.mp hmem with rfl
        rfl
  | write s i signer data t t2 w w2 hr hg hw ih =>
      obtain ⟨ih1, ih2, ih3⟩ := ih
      obtain ⟨hst, -, ht2⟩ :=
        process_write_ok_spec rootFn signer t w data t2 w2 hw
      have htne : t.state ≠ tapeStateFinalized := state_cw_ne_finalized t.state hst
      have ht2ne : t2.state ≠ tapeStateFinalized := by
        rw [ht2]
        show tapeStateWriting ≠ tapeStateFinalized
        decide
      have hfn := finalizedNumbers_set_nonfinal s.tapes i t w t2 w2 hg htne ht2ne
      refine ⟨by simpa [hfn] using ih1, by simpa [hfn] using ih2, ?_⟩
      intro p hp hnf
      rcases List.mem_or_eq_of_mem_set hp with hmem | rfl
      · exact ih3 p hmem hnf
      · have : t2.number = t.number := by rw [ht2]
        rw [this]
        exact ih3 (t, w) (List.get?_mem hg) htne
  | update s i t w w2 r hr hg hst ih =>
      obtain ⟨ih1, ih2, ih3⟩ := ih
      have htne : t.state ≠ tapeStateFinalized := state_cw_ne_finalized t.state hst
      have ht2ne : ({ t with merkle_root := r } : Tape).state ≠ tapeStateFinalized := htne
      have hfn := finalizedNumbers_set_nonfinal s.tapes i t w
        ({ t with merkle_root := r }) w2 hg htne ht2ne
      refine ⟨by simpa [hfn] using ih1, by simpa [hfn] using ih2, ?_⟩
      intro p hp hnf
      rcases List.mem_or_eq_of_mem_set hp with hmem | rfl
      · exact ih3 p hmem hnf
      · exact ih3 (t, w) (List.get?_mem hg) htne
  | finalize s i signer argOpaque t t2 w a2 hr hg hf ih =>
      obtain ⟨ih1, ih2, ih3⟩ := ih
      obtain ⟨hst, ha2, ht2⟩ :=
        process_finalize_ok_spec rootFn signer t w s.archive argOpaque t2 a2 hf
      have htne : t.state ≠ tapeStateFinalized := by
        rw [hst]
        decide
      have ht2f : t2.state = tapeStateFinalized := by rw [ht2]
      have ht2n : t2.number = s.archive.tapes_stored + 1 := by rw [ht2]
      have hperm := finalizedNumbers_set_final s.tapes i t w t2 w hg htne ht2f
      have ha2n : a2.tapes_stored = s.archive.tapes_stored + 1 := by rw [ha2]
      refine ⟨?_, ?_, ?_⟩
      · rw [ha2n, hperm.length_eq]
        simp [ih1]
      · rw [ha2n]
        have hrange : List.range' 1 (s.archive.tapes_stored + 1) =
            List.range' 1 s.archive.tapes_stored ++ [1 + s.archive.tapes_stored] := by
          have h4 := @List.range'_concat 1 1 s.archive.tapes_stored
          simpa using h4
        rw [hrange]
        refine hperm.trans ?_
        have h1 : (t2.number :: finalizedNumbers s.tapes).Perm
            (t2.number :: List.range' 1 s.archive.tapes_stored) := ih2.cons t2.number
        refine h1.trans ?_
        have h2 := List.perm_append_singleton t2.number
          (List.range' 1 s.archive.tapes_stored)
        rw [ht2n]
        have h3 : s.archive.tapes_stored + 1 = 1 + s.archive.tapes_stored := by omega
        rw [h3]
        exact (List.perm_append_singleton (1 + s.archive.tapes_stored)
          (List.range' 1 s.archive.tapes_stored)).symm
      · intro p hp hnf
        rcases List.mem_or_eq_of_mem_set hp with hmem | rfl
        · exact ih3 p hmem hnf
        · exact absurd ht2f hnf

/-- C6: Finalize succeeds only on a Writing tape, increments
archive.tapes_stored by exactly 1 and assigns the incremented count as
the tape number; and in every reachable tape-lifecycle state the archive
count equals the number of finalized tapes, the finalized tape numbers
are exactly {1, ..., tapes_stored} (as a permutation of that range), and
every non-finalized tape carries the reserved number 0. -/
theorem c6_finalize_archive_inv (rootFn : List (List Nat) → List Nat) :
    (∀ signer tape writer archive argOpaque t2 a2,
        process_finalize rootFn signer tape writer archive argOpaque =
          Except.ok (t2, a2) →
        tape.state = tapeStateWriting ∧
        a2.tapes_stored = archive.tapes_stored + 1 ∧
        t2.number = a2.tapes_stored ∧
        t2.state = tapeStateFinalized) ∧
    (∀ s, Reachable rootFn s → ArchiveInv s) := by
  constructor
  · intro signer tape writer archive argOpaque t2 a2 h
    obtain ⟨hst, ha2, ht2⟩ :=
      process_finalize_ok_spec rootFn signer tape writer archive argOpaque t2 a2 h
    refine ⟨hst, by rw [ha2], ?_, by rw [ht2]⟩
    rw [ht2, ha2]
  · exact reachable_archiveInv rootFn

/-- Witness for C6: a concrete finalize of a Writing tape against an
empty archive, and the invariant at the initial state. -/
theorem c6_witness :
    (({ createdTape 7 [] [] with state := tapeStateWriting } : Tape).state =
        tapeStateWriting ∧
      (⟨1, 0⟩ : Archive).tapes_stored = (⟨0, 0⟩ : Archive).tapes_stored + 1 ∧
      ({ createdTape 7 [] [] with
          number := 1
          state := tapeStateFinalized
          merkle_root := [5]
          opaqueData := [] } : Tape).number = (⟨1, 0⟩ : Archive).tapes_stored ∧
      ({ createdTape 7 [] [] with
          number := 1
          state := tapeStateFinalized
          merkle_root := [5]
          opaqueData := [] } : Tape).state = tapeStateFinalized) ∧
    ArchiveInv ⟨⟨0, 0⟩, []⟩ :=
  ⟨(c6_finalize_archive_inv (fun _ => [5])).1 7
      ({ createdTape 7 [] [] with state := tapeStateWriting }) ⟨[]⟩ ⟨0, 0⟩ []
      ({ createdTape 7 [] [] with
          number := 1
          state := tapeStateFinalized
          merkle_root := [5]
          opaqueData := [] }) ⟨1, 0⟩ (by rfl),
   (c6_finalize_archive_inv (fun _ => [5])).2 ⟨⟨0, 0⟩, []⟩ Reachable.init⟩
